import Mathlib

/-!
# Verification of the judicial-decisions query service (`Backend/app.py`)

Shallow embedding of the three HTTP handlers of the service:

* `generar_url` (route `/descargar/{ndetalle}`): looks up the storage path of a
  decision record and mints a signed download URL (version v4, method GET,
  15-minute expiry), or raises HTTP 404.
* `obtener_filtros` (route `/filters`): returns the distinct non-null values of
  the four direct decision attributes and of the judge names linked to at least
  one decision, each list sorted ascending.
* `buscar_sentencias` (route `/search`): dynamically builds a parameterized,
  conditionally-joined SQL query from up to five optional equality filters and
  returns the count of distinct matching decision identifiers together with one
  page of (identifier, storage path) results as a mapping.

The relational store is modelled as lists of records; SQL query execution is
modelled by explicit join/filter/dedup/sort list computations following the
query text the code builds; the query text itself is also modelled as strings,
so that properties of the dynamic query construction (parameterization,
identical FROM/JOIN/WHERE shape of the count and page queries) can be stated.
String ordering is lexicographic on code points, matching Python `sorted`.
-/

namespace SentApp

/-- Lexicographic less-or-equal on lists of characters, by code point. -/
def charListLe : List Char → List Char → Bool
  | [], _ => true
  | _ :: _, [] => false
  | a :: as, b :: bs =>
    if a.toNat < b.toNat then true
    else if b.toNat < a.toNat then false
    else charListLe as bs

/-- Lexicographic less-or-equal on strings (Python `sorted` order). -/
def strLe (a b : String) : Bool :=
  charListLe a.data b.data

/-- A row of the `sentencias_y_autos` table: a judicial decision record.
`ndetalle` is the decision identifier; `url` is the storage path (blob name)
of the stored document, possibly NULL. -/
structure Sentencia where
  ndetalle : String
  codigo_organo : Option String
  codigo_recurso : Option String
  especialidad_expe : Option String
  organo_detalle : Option String
  url : Option String
deriving DecidableEq

/-- A row of the `jueces` table. -/
structure Juez where
  codigo : String
  nombre_juez : Option String
deriving DecidableEq

/-- A row of the `sentencias_jueces` association table (decision–judge
many-to-many join table). -/
structure SentenciaJuez where
  ndetalle : String
  codigo : String
deriving DecidableEq

/-- The relational store: the three tables read by the service. -/
structure DB where
  sentencias : List Sentencia
  jueces : List Juez
  sentencias_jueces : List SentenciaJuez
deriving DecidableEq

/-- The arguments of the `generate_signed_url` call made on the blob of the
decision document: signing version, HTTP method, expiry in minutes, and the
blob the URL is generated for. -/
structure SignedUrl where
  version : String
  method : String
  expirationMinutes : Nat
  blobName : String
deriving DecidableEq

/-- Handler of `/descargar/{ndetalle}`: executes
`SELECT url FROM sentencias_y_autos WHERE ndetalle = %s`, takes the first
row (`fetchone`), and raises HTTP 404 when there is no row or the fetched
`url` is NULL; otherwise it generates a v4 / GET / 15-minute signed URL for
the blob named by `url`.  HTTP errors are modelled by `Except.error` with the
status code. -/
def generar_url (db : DB) (nd : String) : Except Nat SignedUrl :=
  match db.sentencias.find? (fun s => s.ndetalle == nd) with
  | none => .error 404
  | some s =>
    match s.url with
    | none => .error 404
    | some blobName => .ok ⟨"v4", "GET", 15, blobName⟩

/-- Distinct non-null values of a column, as produced by
`SELECT DISTINCT col FROM ... WHERE col IS NOT NULL` (set of values; the
row order returned by the store is irrelevant because the handler sorts). -/
def distinctVals (vals : List (Option String)) : List String :=
  (vals.filterMap id).dedup

/-- Python `sorted` on a list of strings. -/
def sortStr (l : List String) : List String :=
  List.insertionSort (fun a b => strLe a b = true) l

/-- Result shape of the `/filters` handler. -/
structure Filtros where
  codigo_organo : List String
  codigo_recurso : List String
  especialidad_expe : List String
  organo_detalle : List String
  nombre_juez : List String
deriving DecidableEq

/-- The join
`jueces j JOIN sentencias_jueces sj ON sj.codigo = j.codigo
JOIN sentencias_y_autos s ON s.ndetalle = sj.ndetalle`
projected on `j.nombre_juez`, with NULL names discarded and duplicates
removed, as in the fifth query of `/filters`. -/
def juecesVinculados (db : DB) : List String :=
  distinctVals (db.jueces.flatMap (fun j =>
    (db.sentencias_jueces.filter (fun sj => sj.codigo == j.codigo)).flatMap (fun sj =>
      (db.sentencias.filter (fun s => s.ndetalle == sj.ndetalle)).map
        (fun _ => j.nombre_juez))))

/-- Handler of `/filters`: five `SELECT DISTINCT` queries, each result list
sorted with Python `sorted`. -/
def obtener_filtros (db : DB) : Filtros where
  codigo_organo := sortStr (distinctVals (db.sentencias.map (fun s => s.codigo_organo)))
  codigo_recurso := sortStr (distinctVals (db.sentencias.map (fun s => s.codigo_recurso)))
  especialidad_expe := sortStr (distinctVals (db.sentencias.map (fun s => s.especialidad_expe)))
  organo_detalle := sortStr (distinctVals (db.sentencias.map (fun s => s.organo_detalle)))
  nombre_juez := sortStr (juecesVinculados db)

/-- The five optional query parameters of `/search` (each a FastAPI
`Optional[str] = Query(None)`). -/
structure SearchFilters where
  codigo_organo : Option String
  codigo_recurso : Option String
  especialidad_expe : Option String
  organo_detalle : Option String
  nombre_juez : Option String
deriving DecidableEq

/-- Python truthiness of an `Optional[str]`: `None` and the empty string are
falsy; this is the test the code applies (`if codigo_organo:`) before
appending a WHERE condition. -/
def truthy : Option String → Bool
  | none => false
  | some v => !v.isEmpty

/-- Contribution of one optional filter to the `filtros_where` list: the
condition string is appended exactly when the parameter is truthy. -/
def condFrag (c : String) (o : Option String) : List String :=
  if truthy o then [c] else []

/-- Contribution of one optional filter to the bound-parameter list `params`:
the raw value is collected exactly when the parameter is truthy. -/
def paramFrag (o : Option String) : List String :=
  if truthy o then o.toList else []

/-- The `filtros_where` list built by the handler: one parameterized equality
condition per truthy filter, in the fixed source order. -/
def filtros_where (f : SearchFilters) : List String :=
  condFrag "s.codigo_organo = %s" f.codigo_organo ++
  condFrag "s.codigo_recurso = %s" f.codigo_recurso ++
  condFrag "s.especialidad_expe = %s" f.especialidad_expe ++
  condFrag "s.organo_detalle = %s" f.organo_detalle ++
  condFrag "j.nombre_juez = %s" f.nombre_juez

/-- The `params` list built by the handler: the filter values, collected in
the same order as their conditions. -/
def filterParams (f : SearchFilters) : List String :=
  paramFrag f.codigo_organo ++
  paramFrag f.codigo_recurso ++
  paramFrag f.especialidad_expe ++
  paramFrag f.organo_detalle ++
  paramFrag f.nombre_juez

/-- `necesita_join_jueces`: the join choice tests `nombre_juez is not None`
(presence, not truthiness). -/
def necesita_join_jueces (f : SearchFilters) : Bool :=
  f.nombre_juez.isSome

/-- The dynamic `FROM` clause: inner join chain through the association table
to the judges table when `nombre_juez` was supplied, the same chain as LEFT
joins otherwise. -/
def from_clause (f : SearchFilters) : String :=
  "sentencias_y_autos s" ++
  (if necesita_join_jueces f then
    " JOIN sentencias_jueces sj ON sj.ndetalle = s.ndetalle JOIN jueces j ON j.codigo = sj.codigo"
  else
    " LEFT JOIN sentencias_jueces sj ON sj.ndetalle = s.ndetalle LEFT JOIN jueces j ON j.codigo = sj.codigo")

/-- The `where_sql` string: empty when no condition is present, otherwise
`WHERE` followed by the conditions joined with ` AND `. -/
def where_sql (f : SearchFilters) : String :=
  if (filtros_where f).isEmpty then ""
  else "WHERE " ++ String.intercalate " AND " (filtros_where f)

/-- Text of the count query built by the handler. -/
def count_query (f : SearchFilters) : String :=
  "SELECT COUNT(DISTINCT s.ndetalle) FROM " ++ from_clause f ++ " " ++ where_sql f ++ ";"

/-- Text of the page query built by the handler. -/
def select_query (f : SearchFilters) : String :=
  "SELECT DISTINCT s.ndetalle, s.url FROM " ++ from_clause f ++ " " ++ where_sql f ++
    " ORDER BY s.ndetalle LIMIT %s OFFSET %s;"

/-- A bound SQL parameter: a string filter value or an integer
(limit/offset). -/
inductive SqlParam where
  | strv (v : String)
  | intv (v : Int)
deriving DecidableEq

/-- `params_with_pagination`: the filter values followed by `limit` and
`offset`, in the order the placeholders occur in the page query. -/
def params_with_pagination (f : SearchFilters) (limit offset : Int) : List SqlParam :=
  (filterParams f).map .strv ++ [.intv limit, .intv offset]

/-- A result row of the three-table `FROM` clause: the decision record and
(possibly NULL, for the outer join) the associated join-table and judge
rows. -/
structure Row where
  s : Sentencia
  sj : Option SentenciaJuez
  j : Option Juez
deriving DecidableEq

/-- Rows of the inner join chain
`sentencias_y_autos s JOIN sentencias_jueces sj ON sj.ndetalle = s.ndetalle
JOIN jueces j ON j.codigo = sj.codigo`. -/
def innerRows (db : DB) : List Row :=
  db.sentencias.flatMap (fun s =>
    (db.sentencias_jueces.filter (fun sj => sj.ndetalle == s.ndetalle)).flatMap (fun sj =>
      (db.jueces.filter (fun j => j.codigo == sj.codigo)).map
        (fun j => ⟨s, some sj, some j⟩)))

/-- Rows contributed by one decision record to the LEFT join chain: at least
one row per record, with NULL `sj`/`j` columns where no association or judge
matches. -/
def rowsForS (db : DB) (s : Sentencia) : List Row :=
  if (db.sentencias_jueces.filter (fun sj => sj.ndetalle == s.ndetalle)).isEmpty then
    [⟨s, none, none⟩]
  else
    (db.sentencias_jueces.filter (fun sj => sj.ndetalle == s.ndetalle)).flatMap (fun sj =>
      if (db.jueces.filter (fun j => j.codigo == sj.codigo)).isEmpty then
        [⟨s, some sj, none⟩]
      else
        (db.jueces.filter (fun j => j.codigo == sj.codigo)).map (fun j => ⟨s, some sj, some j⟩))

/-- Rows of the LEFT join chain
`sentencias_y_autos s LEFT JOIN sentencias_jueces sj ON sj.ndetalle = s.ndetalle
LEFT JOIN jueces j ON j.codigo = sj.codigo`. -/
def leftRows (db : DB) : List Row :=
  db.sentencias.flatMap (rowsForS db)

/-- The row set produced by the dynamic `FROM` clause. -/
def fromRows (db : DB) (f : SearchFilters) : List Row :=
  if necesita_join_jueces f then innerRows db else leftRows db

/-- SQL truth of the conjunction of the four direct equality conditions on a
row (a condition is present exactly when its filter is truthy; comparison
with a NULL column is not true). -/
def directMatches (f : SearchFilters) (s : Sentencia) : Bool :=
  (!truthy f.codigo_organo || s.codigo_organo == f.codigo_organo) &&
  (!truthy f.codigo_recurso || s.codigo_recurso == f.codigo_recurso) &&
  (!truthy f.especialidad_expe || s.especialidad_expe == f.especialidad_expe) &&
  (!truthy f.organo_detalle || s.organo_detalle == f.organo_detalle)

/-- SQL truth of the `j.nombre_juez = %s` condition on a row (trivially true
when the condition is absent; not true when the judge columns are NULL). -/
def judgeMatches (f : SearchFilters) : Option Juez → Bool
  | some j => !truthy f.nombre_juez || (j.nombre_juez == f.nombre_juez)
  | none => !truthy f.nombre_juez

/-- SQL truth of the whole dynamic WHERE clause on a row. -/
def rowMatches (f : SearchFilters) (r : Row) : Bool :=
  directMatches f r.s && judgeMatches f r.j

/-- The rows of the `FROM` clause satisfying the WHERE clause: the base of
both the count query and the page query. -/
def matchingRows (db : DB) (f : SearchFilters) : List Row :=
  (fromRows db f).filter (rowMatches f)

/-- The `s.ndetalle` column over the matching rows; the count query counts its
distinct values. -/
def countBase (db : DB) (f : SearchFilters) : List String :=
  (matchingRows db f).map (fun r => r.s.ndetalle)

/-- `SELECT COUNT(DISTINCT s.ndetalle)` over the matching rows. -/
def totalCount (db : DB) (f : SearchFilters) : Nat :=
  (countBase db f).dedup.length

/-- `SELECT DISTINCT s.ndetalle, s.url` over the matching rows. -/
def distinctPairs (db : DB) (f : SearchFilters) : List (String × Option String) :=
  ((matchingRows db f).map (fun r => (r.s.ndetalle, r.s.url))).dedup

/-- `ORDER BY s.ndetalle` on the distinct pairs (ascending by identifier; the
relative order of pairs with equal identifiers is not specified by SQL and is
fixed arbitrarily here by a stable sort). -/
def sortPairs (ps : List (String × Option String)) : List (String × Option String) :=
  List.insertionSort (fun a b => strLe a.1 b.1 = true) ps

/-- The page returned by the page query: `OFFSET offset` then `LIMIT limit`
on the ordered distinct pairs. -/
def pageRows (db : DB) (f : SearchFilters) (limit offset : Nat) :
    List (String × Option String) :=
  ((sortPairs (distinctPairs db f)).drop offset).take limit

/-- One insertion into the Python dict model: overwrite in place when the key
is already present, append otherwise. -/
def dictUpsert (d : List (String × Option String)) (kv : String × Option String) :
    List (String × Option String) :=
  if d.any (fun p => p.1 == kv.1) then
    d.map (fun p => if p.1 == kv.1 then kv else p)
  else d ++ [kv]

/-- The dict comprehension `\x7brow[0]: row[1] for row in filas\x7d`: keys in
first-insertion order, a later row for the same key overwriting the earlier
value. -/
def buildDict (rows : List (String × Option String)) : List (String × Option String) :=
  rows.foldl dictUpsert []

/-- Lookup in the dict model. -/
def dictFind (d : List (String × Option String)) (k : String) : Option (Option String) :=
  (d.find? (fun p => p.1 == k)).map (fun p => p.2)

/-- Result shape of the `/search` handler. -/
structure SearchResult where
  total_count : Nat
  items : List (String × Option String)
deriving DecidableEq

/-- Handler of `/search`: executes the count query and the page query built
from the five optional filters and returns the distinct-identifier count
together with the page rows delivered as a dict. -/
def buscar_sentencias (db : DB) (f : SearchFilters) (limit offset : Nat) : SearchResult where
  total_count := totalCount db f
  items := buildDict (pageRows db f limit offset)

/-- Outcome of one handler invocation: a successful JSON payload, an HTTP
error raised deliberately by the handler, or an uncaught store/object-store
failure propagating out of the handler. -/
inductive RunResult (α : Type) where
  | ok (a : α)
  | httpError (code : Nat)
  | storeFailure
deriving DecidableEq

/-- A handler invocation together with the state of the connection opened at
entry: `connReleased` records whether `conn.close()` was reached before the
handler returned or the exception propagated. -/
structure RunOutcome (α : Type) where
  result : RunResult α
  connReleased : Bool
deriving DecidableEq

/-- Execution of the `/descargar` handler with a failure oracle: `queryOk`
tells whether the single `cur.execute` succeeds, `signOk` whether the
signed-URL generation succeeds.  The handler closes the connection right
after fetching, before the 404 raise and before signing; but a failing
`execute` propagates before any `close()` (there is no try/finally). -/
def generar_url_run (db : DB) (nd : String) (queryOk signOk : Bool) :
    RunOutcome SignedUrl :=
  if !queryOk then ⟨.storeFailure, false⟩
  else
    match generar_url db nd with
    | .error c => ⟨.httpError c, true⟩
    | .ok u => if signOk then ⟨.ok u, true⟩ else ⟨.storeFailure, true⟩

/-- Execution of the `/filters` handler with a failure oracle: `queriesOk`
tells whether all five `cur.execute` calls succeed; a failing one propagates
before the final `close()` (there is no try/finally). -/
def obtener_filtros_run (db : DB) (queriesOk : Bool) : RunOutcome Filtros :=
  if queriesOk then ⟨.ok (obtener_filtros db), true⟩ else ⟨.storeFailure, false⟩

/-- Execution of the `/search` handler with a failure oracle: `countOk` and
`pageOk` tell whether the count-query and page-query `cur.execute` calls
succeed; a failing one propagates before the final `close()` (there is no
try/finally). -/
def buscar_sentencias_run (db : DB) (f : SearchFilters) (limit offset : Nat)
    (countOk pageOk : Bool) : RunOutcome SearchResult :=
  if !countOk then ⟨.storeFailure, false⟩
  else if !pageOk then ⟨.storeFailure, false⟩
  else ⟨.ok (buscar_sentencias db f limit offset), true⟩

/-- Specification-side characterisation of "decision identifier `n` satisfies
the conjunction of the present equality predicates over the chosen join
shape": some decision record carries `n`, satisfies the present direct
predicates, and — when the inner join chain is chosen — is linked through the
association table to a judge satisfying the judge-name predicate when that
one is present. -/
def specMatchesId (db : DB) (f : SearchFilters) (n : String) : Bool :=
  db.sentencias.any (fun s =>
    s.ndetalle == n && directMatches f s &&
    (!necesita_join_jueces f ||
      db.sentencias_jueces.any (fun sj =>
        sj.ndetalle == s.ndetalle &&
        db.jueces.any (fun j => j.codigo == sj.codigo && judgeMatches f (some j)))))

/-- Specification-side count: the number of distinct decision identifiers
satisfying the present predicates over the chosen join shape. -/
def specCount (db : DB) (f : SearchFilters) : Nat :=
  ((db.sentencias.map (fun s => s.ndetalle)).filter (specMatchesId db f)).dedup.length

/-- Two requests have the same present filters when, field by field, the
filter is either absent (not supplied) in both or present (supplied with a
truthy value, hence contributing a condition) in both. -/
def samePresence (f1 f2 : SearchFilters) : Prop :=
  (f1.codigo_organo = none ∧ f2.codigo_organo = none ∨
    truthy f1.codigo_organo = true ∧ truthy f2.codigo_organo = true) ∧
  (f1.codigo_recurso = none ∧ f2.codigo_recurso = none ∨
    truthy f1.codigo_recurso = true ∧ truthy f2.codigo_recurso = true) ∧
  (f1.especialidad_expe = none ∧ f2.especialidad_expe = none ∨
    truthy f1.especialidad_expe = true ∧ truthy f2.especialidad_expe = true) ∧
  (f1.organo_detalle = none ∧ f2.organo_detalle = none ∨
    truthy f1.organo_detalle = true ∧ truthy f2.organo_detalle = true) ∧
  (f1.nombre_juez = none ∧ f2.nombre_juez = none ∨
    truthy f1.nombre_juez = true ∧ truthy f2.nombre_juez = true)

instance (f1 f2 : SearchFilters) : Decidable (samePresence f1 f2) := by
  unfold samePresence; infer_instance

/-- Replace a non-truthy value (absent, or the empty string) by `none`. -/
def normalizeField (o : Option String) : Option String :=
  if truthy o then o else none

/-- Field-wise normalisation of a filter set: empty-string filters become
absent. -/
def normalizeFilters (f : SearchFilters) : SearchFilters where
  codigo_organo := normalizeField f.codigo_organo
  codigo_recurso := normalizeField f.codigo_recurso
  especialidad_expe := normalizeField f.especialidad_expe
  organo_detalle := normalizeField f.organo_detalle
  nombre_juez := normalizeField f.nombre_juez

/-- Sample decision record with a stored document and one associated judge. -/
def wS1 : Sentencia := ⟨"1", some "A", some "R1", some "E1", some "D1", some "u1"⟩

/-- Sample decision record with no stored document and no judge association. -/
def wS2 : Sentencia := ⟨"2", some "B", none, none, none, none⟩

/-- Sample judge. -/
def wJ1 : Juez := ⟨"J1", some "Perez"⟩

/-- Sample store contents used to exercise the handlers on concrete input. -/
def wDB : DB := ⟨[wS1, wS2], [wJ1], [⟨"1", "J1"⟩]⟩

/-- A search request with no filter supplied. -/
def wNoF : SearchFilters := ⟨none, none, none, none, none⟩

/-- A search request filtering on a judge name that matches no judge. -/
def wJX : SearchFilters := ⟨none, none, none, none, some "X"⟩

/-- A search request with `nombre_juez` supplied as the empty string. -/
def wJE : SearchFilters := ⟨none, none, none, none, some ""⟩

/-- A search request filtering on an organ code that matches no record. -/
def wOX : SearchFilters := ⟨some "Z", none, none, none, none⟩

/-- A search request filtering the organ code by the value `A`. -/
def wF1 : SearchFilters := ⟨some "A", none, none, none, none⟩

/-- The same present filters as `wF1` with a different value. -/
def wF2 : SearchFilters := ⟨some "B", none, none, none, none⟩

theorem charListLe_total : ∀ as bs, charListLe as bs = true ∨ charListLe bs as = true := by
  intro as
  induction as with
  | nil => intro bs; left; rfl
  | cons a as ih =>
    intro bs
    cases bs with
    | nil => right; rfl
    | cons b bs =>
      by_cases hab : a.toNat < b.toNat
      · left; simp [charListLe, hab]
      · by_cases hba : b.toNat < a.toNat
        · right; simp [charListLe, hba]
        · have hlt : ¬b.toNat < a.toNat := hba
          rcases ih bs with h | h
          · left; simp [charListLe, hab, hba, h]
          · right; simp [charListLe, hab, hba, h]

theorem charListLe_trans :
    ∀ as bs cs, charListLe as bs = true → charListLe bs cs = true →
      charListLe as cs = true := by
  intro as
  induction as with
  | nil => intro bs cs _ _; rfl
  | cons a as ih =>
    intro bs cs h1 h2
    cases bs with
    | nil => simp [charListLe] at h1
    | cons b bs =>
      cases cs with
      | nil => simp [charListLe] at h2
      | cons c cs =>
        simp only [charListLe] at h1 h2 ⊢
        split at h1
        · rename_i hab
          split at h2
          · rename_i hbc
            have : a.toNat < c.toNat := Nat.lt_trans hab hbc
            simp [this]
          · rename_i hbc
            split at h2
            · exact absurd h2 (by simp)
            · rename_i hcb
              have hb : b.toNat = c.toNat := Nat.le_antisymm (Nat.le_of_not_lt hcb) (Nat.le_of_not_lt hbc)
              have : a.toNat < c.toNat := hb ▸ hab
              simp [this]
        · rename_i hab
          split at h1
          · exact absurd h1 (by simp)
          · rename_i hba
            have hab2 : a.toNat = b.toNat := Nat.le_antisymm (Nat.le_of_not_lt hba) (Nat.le_of_not_lt hab)
            split at h2
            · rename_i hbc
              have : a.toNat < c.toNat := hab2 ▸ hbc
              simp [this]
            · rename_i hbc
              split at h2
              · exact absurd h2 (by simp)
              · rename_i hcb
                have hac : ¬a.toNat < c.toNat := by omega
                have hca : ¬c.toNat < a.toNat := by omega
                simp [hac, hca]
                exact ih bs cs h1 h2

theorem strLe_total (a b : String) : strLe a b = true ∨ strLe b a = true :=
  charListLe_total a.data b.data

theorem strLe_trans {a b c : String} (h1 : strLe a b = true) (h2 : strLe b c = true) :
    strLe a c = true :=
  charListLe_trans a.data b.data c.data h1 h2

instance : IsTotal String (fun a b => strLe a b = true) :=
  ⟨strLe_total⟩

instance : IsTrans String (fun a b => strLe a b = true) :=
  ⟨fun _ _ _ h1 h2 => strLe_trans h1 h2⟩

instance : IsTotal (String × Option String) (fun a b => strLe a.1 b.1 = true) :=
  ⟨fun a b => strLe_total a.1 b.1⟩

instance : IsTrans (String × Option String) (fun a b => strLe a.1 b.1 = true) :=
  ⟨fun _ _ _ h1 h2 => strLe_trans h1 h2⟩

/-- Two lists with the same members have the same number of distinct
elements. -/
theorem dedup_length_eq {α : Type} [DecidableEq α] {l1 l2 : List α}
    (h : ∀ x, x ∈ l1 ↔ x ∈ l2) : l1.dedup.length = l2.dedup.length := by
  have hfin : l1.toFinset = l2.toFinset := by
    apply Finset.ext
    intro a
    simpa [List.mem_toFinset] using h a
  calc l1.dedup.length = l1.toFinset.card := (List.card_toFinset l1).symm
    _ = l2.toFinset.card := by rw [hfin]
    _ = l2.dedup.length := List.card_toFinset l2

theorem sortStr_sorted (l : List String) :
    List.Sorted (fun a b => strLe a b = true) (sortStr l) :=
  List.sorted_insertionSort _ l

theorem sortStr_mem {a : String} {l : List String} : a ∈ sortStr l ↔ a ∈ l :=
  (List.perm_insertionSort _ l).mem_iff

theorem sortStr_nodup {l : List String} (h : l.Nodup) : (sortStr l).Nodup :=
  ((List.perm_insertionSort _ l).nodup_iff).mpr h

theorem sortPairs_sorted (ps : List (String × Option String)) :
    List.Sorted (fun a b => strLe a.1 b.1 = true) (sortPairs ps) :=
  List.sorted_insertionSort _ ps

theorem sortPairs_mem {p : String × Option String} {ps : List (String × Option String)} :
    p ∈ sortPairs ps ↔ p ∈ ps :=
  (List.perm_insertionSort _ ps).mem_iff

theorem sortPairs_nodup {ps : List (String × Option String)} (h : ps.Nodup) :
    (sortPairs ps).Nodup :=
  ((List.perm_insertionSort _ ps).nodup_iff).mpr h

theorem distinctVals_nodup (vals : List (Option String)) : (distinctVals vals).Nodup :=
  List.nodup_dedup _

theorem distinctVals_mem {v : String} {vals : List (Option String)} :
    v ∈ distinctVals vals ↔ some v ∈ vals := by
  simp [distinctVals, List.mem_dedup, List.mem_filterMap]

theorem mem_innerRows {db : DB} {r : Row} :
    r ∈ innerRows db ↔
      ∃ s ∈ db.sentencias, ∃ sj ∈ db.sentencias_jueces, ∃ j ∈ db.jueces,
        sj.ndetalle = s.ndetalle ∧ j.codigo = sj.codigo ∧ r = ⟨s, some sj, some j⟩ := by
  simp only [innerRows, List.mem_flatMap, List.mem_filter, List.mem_map, beq_iff_eq]
  constructor
  · rintro ⟨s, hs, sj, ⟨hsj, hnd⟩, j, ⟨hj, hcod⟩, hr⟩
    exact ⟨s, hs, sj, hsj, j, hj, hnd, hcod, hr.symm⟩
  · rintro ⟨s, hs, sj, hsj, j, hj, hnd, hcod, rfl⟩
    exact ⟨s, hs, sj, ⟨hsj, hnd⟩, j, ⟨hj, hcod⟩, rfl⟩

theorem rowsForS_sEq {db : DB} {s : Sentencia} {r : Row} (h : r ∈ rowsForS db s) :
    r.s = s := by
  unfold rowsForS at h
  split at h
  · simp only [List.mem_singleton] at h
    rw [h]
  · simp only [List.mem_flatMap] at h
    obtain ⟨sj, _, hin⟩ := h
    split at hin
    · simp only [List.mem_singleton] at hin
      rw [hin]
    · simp only [List.mem_map] at hin
      obtain ⟨j, _, hr⟩ := hin
      rw [← hr]

theorem exists_mem_rowsForS (db : DB) (s : Sentencia) : ∃ r ∈ rowsForS db s, r.s = s := by
  unfold rowsForS
  split
  · exact ⟨⟨s, none, none⟩, List.mem_singleton.mpr rfl, rfl⟩
  · rename_i hne
    have hms : db.sentencias_jueces.filter (fun sj => sj.ndetalle == s.ndetalle) ≠ [] := by
      intro hc
      rw [hc] at hne
      exact hne rfl
    obtain ⟨sj, hsj⟩ := List.exists_mem_of_ne_nil _ hms
    by_cases hjs : (db.jueces.filter (fun j => j.codigo == sj.codigo)).isEmpty
    · refine ⟨⟨s, some sj, none⟩, List.mem_flatMap.mpr ⟨sj, hsj, ?_⟩, rfl⟩
      rw [if_pos hjs]
      exact List.mem_singleton.mpr rfl
    · have hjne : db.jueces.filter (fun j => j.codigo == sj.codigo) ≠ [] := by
        intro hc
        rw [hc] at hjs
        exact hjs rfl
      obtain ⟨j, hj⟩ := List.exists_mem_of_ne_nil _ hjne
      refine ⟨⟨s, some sj, some j⟩, List.mem_flatMap.mpr ⟨sj, hsj, ?_⟩, rfl⟩
      rw [if_neg hjs]
      exact List.mem_map.mpr ⟨j, hj, rfl⟩

theorem leftRows_sMem {db : DB} {r : Row} (h : r ∈ leftRows db) : r.s ∈ db.sentencias := by
  simp only [leftRows, List.mem_flatMap] at h
  obtain ⟨s, hs, hr⟩ := h
  rw [rowsForS_sEq hr]
  exact hs

theorem exists_leftRow {db : DB} {s : Sentencia} (hs : s ∈ db.sentencias) :
    ∃ r ∈ leftRows db, r.s = s := by
  obtain ⟨r, hr, hrs⟩ := exists_mem_rowsForS db s
  exact ⟨r, List.mem_flatMap.mpr ⟨s, hs, hr⟩, hrs⟩

theorem truthy_isSome {o : Option String} (h : truthy o = true) : o.isSome = true := by
  cases o
  · simp [truthy] at h
  · rfl

theorem judgeMatches_of_none {f : SearchFilters} (h : f.nombre_juez = none)
    (oj : Option Juez) : judgeMatches f oj = true := by
  cases oj <;> simp [judgeMatches, truthy, h]

theorem necesita_false_none {f : SearchFilters} (h : necesita_join_jueces f = false) :
    f.nombre_juez = none := by
  unfold necesita_join_jueces at h
  cases hc : f.nombre_juez
  · rfl
  · rw [hc] at h
    simp at h

/-- A decision identifier occurs among the `s.ndetalle` values of the matching
rows exactly when it satisfies the specification-side characterisation of the
present predicates over the chosen join shape. -/
theorem mem_countBase_iff {db : DB} {f : SearchFilters} {n : String} :
    n ∈ countBase db f ↔ specMatchesId db f n = true := by
  by_cases hj : necesita_join_jueces f = true
  · have hfrom : fromRows db f = innerRows db := by simp [fromRows, hj]
    constructor
    · intro h
      simp only [countBase, matchingRows, hfrom, List.mem_map, List.mem_filter] at h
      obtain ⟨r, ⟨hrin, hrm⟩, hrn⟩ := h
      rw [mem_innerRows] at hrin
      obtain ⟨s, hs, sj, hsj, j, hjmem, hnd, hcod, rfl⟩ := hrin
      simp only [rowMatches, Bool.and_eq_true] at hrm
      unfold specMatchesId
      rw [List.any_eq_true]
      refine ⟨s, hs, ?_⟩
      rw [hj]
      simp only [Bool.not_true, Bool.false_or, Bool.and_eq_true, beq_iff_eq]
      refine ⟨⟨hrn, hrm.1⟩, ?_⟩
      rw [List.any_eq_true]
      refine ⟨sj, hsj, ?_⟩
      simp only [Bool.and_eq_true, beq_iff_eq]
      refine ⟨hnd, ?_⟩
      rw [List.any_eq_true]
      refine ⟨j, hjmem, ?_⟩
      simp only [Bool.and_eq_true, beq_iff_eq]
      exact ⟨hcod, hrm.2⟩
    · intro h
      unfold specMatchesId at h
      rw [List.any_eq_true] at h
      obtain ⟨s, hs, hcond⟩ := h
      rw [hj] at hcond
      simp only [Bool.not_true, Bool.false_or, Bool.and_eq_true, beq_iff_eq] at hcond
      obtain ⟨⟨hn, hdir⟩, hany⟩ := hcond
      rw [List.any_eq_true] at hany
      obtain ⟨sj, hsj, hsjc⟩ := hany
      simp only [Bool.and_eq_true, beq_iff_eq] at hsjc
      obtain ⟨hnd, hjany⟩ := hsjc
      rw [List.any_eq_true] at hjany
      obtain ⟨j, hjmem, hjc⟩ := hjany
      simp only [Bool.and_eq_true, beq_iff_eq] at hjc
      obtain ⟨hcod, hname⟩ := hjc
      simp only [countBase, matchingRows, hfrom, List.mem_map, List.mem_filter]
      refine ⟨⟨s, some sj, some j⟩, ⟨?_, ?_⟩, hn⟩
      · rw [mem_innerRows]
        exact ⟨s, hs, sj, hsj, j, hjmem, hnd, hcod, rfl⟩
      · simp only [rowMatches, Bool.and_eq_true]
        exact ⟨hdir, hname⟩
  · have hjf : necesita_join_jueces f = false := by
      cases hx : necesita_join_jueces f
      · rfl
      · exact absurd hx hj
    have hnone : f.nombre_juez = none := necesita_false_none hjf
    have hfrom : fromRows db f = leftRows db := by simp [fromRows, hjf]
    have hrow : ∀ r : Row, rowMatches f r = directMatches f r.s := by
      intro r
      simp [rowMatches, judgeMatches_of_none hnone]
    constructor
    · intro h
      simp only [countBase, matchingRows, hfrom, List.mem_map, List.mem_filter] at h
      obtain ⟨r, ⟨hrin, hrm⟩, hrn⟩ := h
      rw [hrow r] at hrm
      unfold specMatchesId
      rw [List.any_eq_true]
      refine ⟨r.s, leftRows_sMem hrin, ?_⟩
      rw [hjf]
      simp only [Bool.not_false, Bool.true_or, Bool.and_true, Bool.and_eq_true, beq_iff_eq]
      exact ⟨hrn, hrm⟩
    · intro h
      unfold specMatchesId at h
      rw [List.any_eq_true] at h
      obtain ⟨s, hs, hcond⟩ := h
      rw [hjf] at hcond
      simp only [Bool.not_false, Bool.true_or, Bool.and_true, Bool.and_eq_true,
        beq_iff_eq] at hcond
      obtain ⟨hn, hdir⟩ := hcond
      obtain ⟨r, hr, hrs⟩ := exists_leftRow hs
      simp only [countBase, matchingRows, hfrom, List.mem_map, List.mem_filter]
      refine ⟨r, ⟨hr, ?_⟩, by rw [hrs]; exact hn⟩
      rw [hrow r, hrs]
      exact hdir

theorem specMatchesId_mem {db : DB} {f : SearchFilters} {n : String}
    (h : specMatchesId db f n = true) :
    n ∈ db.sentencias.map (fun s => s.ndetalle) := by
  unfold specMatchesId at h
  rw [List.any_eq_true] at h
  obtain ⟨s, hs, hc⟩ := h
  simp only [Bool.and_eq_true, beq_iff_eq] at hc
  exact List.mem_map.mpr ⟨s, hs, hc.1.1⟩

theorem totalCount_eq_specCount (db : DB) (f : SearchFilters) :
    totalCount db f = specCount db f := by
  unfold totalCount specCount
  apply dedup_length_eq
  intro x
  rw [mem_countBase_iff]
  constructor
  · intro h
    exact List.mem_filter.mpr ⟨specMatchesId_mem h, h⟩
  · intro h
    exact (List.mem_filter.mp h).2

theorem mem_distinctPairs {db : DB} {f : SearchFilters} {p : String × Option String} :
    p ∈ distinctPairs db f ↔ ∃ r ∈ matchingRows db f, (r.s.ndetalle, r.s.url) = p := by
  simp [distinctPairs, List.mem_dedup, List.mem_map]

theorem mem_map_fst_distinctPairs {db : DB} {f : SearchFilters} {n : String} :
    n ∈ (distinctPairs db f).map Prod.fst ↔ n ∈ countBase db f := by
  simp only [List.mem_map, countBase]
  constructor
  · rintro ⟨p, hp, hpn⟩
    obtain ⟨r, hr, hrp⟩ := mem_distinctPairs.mp hp
    refine ⟨r, hr, ?_⟩
    rw [← hpn, ← hrp]
  · rintro ⟨r, hr, hrn⟩
    exact ⟨(r.s.ndetalle, r.s.url), mem_distinctPairs.mpr ⟨r, hr, rfl⟩, hrn⟩

theorem pageRows_sublist (db : DB) (f : SearchFilters) (limit offset : Nat) :
    (pageRows db f limit offset).Sublist (sortPairs (distinctPairs db f)) :=
  (List.take_sublist _ _).trans (List.drop_sublist _ _)

theorem pageRows_mem {db : DB} {f : SearchFilters} {limit offset : Nat}
    {p : String × Option String} (h : p ∈ pageRows db f limit offset) :
    p ∈ distinctPairs db f :=
  sortPairs_mem.mp ((pageRows_sublist db f limit offset).subset h)

theorem pageRows_sorted (db : DB) (f : SearchFilters) (limit offset : Nat) :
    List.Sorted (fun a b => strLe a.1 b.1 = true) (pageRows db f limit offset) :=
  List.Pairwise.sublist (pageRows_sublist db f limit offset) (sortPairs_sorted _)

theorem pageRows_nodup (db : DB) (f : SearchFilters) (limit offset : Nat) :
    (pageRows db f limit offset).Nodup :=
  (pageRows_sublist db f limit offset).nodup (sortPairs_nodup (List.nodup_dedup _))

theorem pageRows_length_le (db : DB) (f : SearchFilters) (limit offset : Nat) :
    (pageRows db f limit offset).length ≤ limit :=
  List.length_take_le _ _

theorem findMapUpd_of_ne (kv : String × Option String) (k : String)
    (hk : (kv.1 == k) = false) :
    ∀ d : List (String × Option String),
      (d.map (fun p => if p.1 == kv.1 then kv else p)).find? (fun p => p.1 == k) =
        d.find? (fun p => p.1 == k) := by
  intro d
  induction d with
  | nil => rfl
  | cons p d ih =>
    by_cases hp : (p.1 == kv.1) = true
    · have hpk : (p.1 == k) = false := by
        rw [beq_iff_eq] at hp
        rw [hp]
        exact hk
      simp only [List.map_cons, if_pos hp, List.find?_cons, hk, hpk]
      exact ih
    · by_cases hpk : (p.1 == k) = true
      · simp only [List.map_cons, if_neg hp, List.find?_cons, hpk]
      · have hpk2 : (p.1 == k) = false := Bool.eq_false_iff.mpr hpk
        simp only [List.map_cons, if_neg hp, List.find?_cons, hpk2]
        exact ih

theorem findMapUpd_of_eq (kv : String × Option String) (k : String)
    (hk : (kv.1 == k) = true) :
    ∀ d : List (String × Option String),
      (d.map (fun p => if p.1 == kv.1 then kv else p)).find? (fun p => p.1 == k) =
        (d.find? (fun p => p.1 == k)).map (fun _ => kv) := by
  intro d
  induction d with
  | nil => rfl
  | cons p d ih =>
    by_cases hpk : (p.1 == k) = true
    · have hp : (p.1 == kv.1) = true := by
        rw [beq_iff_eq] at hpk hk ⊢
        rw [hpk, hk]
      simp only [List.map_cons, if_pos hp, List.find?_cons, hpk, hk]
      rfl
    · have hpk2 : (p.1 == k) = false := Bool.eq_false_iff.mpr hpk
      by_cases hp : (p.1 == kv.1) = true
      · have hcontra : p.1 = k := by
          rw [beq_iff_eq] at hp hk
          rw [hp, hk]
        rw [beq_iff_eq] at hpk
        exact absurd hcontra hpk
      · simp only [List.map_cons, if_neg hp, List.find?_cons, hpk2]
        exact ih

theorem dictFind_upsert (d : List (String × Option String))
    (kv : String × Option String) (k : String) :
    dictFind (dictUpsert d kv) k =
      if (kv.1 == k) = true then some kv.2 else dictFind d k := by
  unfold dictUpsert dictFind
  by_cases hany : (d.any (fun p => p.1 == kv.1)) = true
  · rw [if_pos hany]
    by_cases hk : (kv.1 == k) = true
    · rw [if_pos hk, findMapUpd_of_eq kv k hk d]
      rw [List.any_eq_true] at hany
      obtain ⟨p, hp, hpkv⟩ := hany
      have hpk : (p.1 == k) = true := by
        rw [beq_iff_eq] at hpkv hk ⊢
        rw [hpkv, hk]
      cases hfind : d.find? (fun p => p.1 == k) with
      | none =>
        rw [List.find?_eq_none] at hfind
        exact absurd hpk (hfind p hp)
      | some p0 => rfl
    · rw [if_neg hk]
      have hk2 : (kv.1 == k) = false := Bool.eq_false_iff.mpr hk
      rw [findMapUpd_of_ne kv k hk2 d]
  · have hany2 : (d.any (fun p => p.1 == kv.1)) = false := Bool.eq_false_iff.mpr hany
    rw [if_neg hany]
    rw [List.find?_append]
    by_cases hk : (kv.1 == k) = true
    · rw [if_pos hk]
      have hdnone : d.find? (fun p => p.1 == k) = none := by
        rw [List.find?_eq_none]
        intro p hp
        simp only [List.any_eq_true, not_exists] at hany
        intro hpk
        apply hany p
        refine ⟨hp, ?_⟩
        rw [beq_iff_eq] at hpk hk ⊢
        rw [hpk, ← hk]
      rw [hdnone]
      simp only [Option.none_or, List.find?_cons, hk]
      rfl
    · rw [if_neg hk]
      have hk2 : (kv.1 == k) = false := Bool.eq_false_iff.mpr hk
      simp only [List.find?_cons, hk2, List.find?_nil, Option.or_none]

theorem foldl_upsert_find (k : String) :
    ∀ (rows acc : List (String × Option String)),
      dictFind (rows.foldl dictUpsert acc) k =
        match rows.reverse.find? (fun p => p.1 == k) with
        | some p => some p.2
        | none => dictFind acc k := by
  intro rows
  induction rows with
  | nil => intro acc; rfl
  | cons kv rows ih =>
    intro acc
    rw [List.foldl_cons, ih (dictUpsert acc kv)]
    rw [List.reverse_cons, List.find?_append]
    cases hf : rows.reverse.find? (fun p => p.1 == k) with
    | some p => rfl
    | none =>
      simp only [Option.none_or]
      rw [dictFind_upsert]
      by_cases hk : (kv.1 == k) = true
      · simp [List.find?_cons, hk]
      · have hk2 : (kv.1 == k) = false := Bool.eq_false_iff.mpr hk
        simp [List.find?_cons, hk2, List.find?_nil]

theorem buildDict_find (rows : List (String × Option String)) (k : String) :
    dictFind (buildDict rows) k =
      (rows.reverse.find? (fun p => p.1 == k)).map (fun p => p.2) := by
  rw [buildDict, foldl_upsert_find k rows []]
  cases hf : rows.reverse.find? (fun p => p.1 == k) with
  | some p => rfl
  | none => rfl

theorem dictUpsert_keys_nodup {d : List (String × Option String)}
    {kv : String × Option String} (h : (d.map Prod.fst).Nodup) :
    ((dictUpsert d kv).map Prod.fst).Nodup := by
  unfold dictUpsert
  by_cases hany : (d.any (fun p => p.1 == kv.1)) = true
  · rw [if_pos hany, List.map_map]
    have : d.map (Prod.fst ∘ fun p => if p.1 == kv.1 then kv else p) = d.map Prod.fst := by
      apply List.map_congr_left
      intro p _
      by_cases hp : (p.1 == kv.1) = true
      · simp only [Function.comp_apply, if_pos hp]
        rw [beq_iff_eq] at hp
        rw [hp]
      · simp only [Function.comp_apply, if_neg hp]
    rw [this]
    exact h
  · rw [if_neg hany, List.map_append]
    rw [List.nodup_append]
    refine ⟨h, List.nodup_singleton _, ?_⟩
    intro x hx hx2
    simp only [List.map_singleton, List.mem_singleton] at hx2
    simp only [List.mem_map] at hx
    obtain ⟨p, hp, hpx⟩ := hx
    simp only [List.any_eq_true, not_exists] at hany
    apply hany p
    refine ⟨hp, ?_⟩
    rw [beq_iff_eq, hpx, hx2]

theorem buildDict_keys_nodup_aux :
    ∀ (rows acc : List (String × Option String)), (acc.map Prod.fst).Nodup →
      (((rows.foldl dictUpsert acc)).map Prod.fst).Nodup := by
  intro rows
  induction rows with
  | nil => intro acc h; exact h
  | cons kv rows ih =>
    intro acc h
    rw [List.foldl_cons]
    exact ih _ (dictUpsert_keys_nodup h)

theorem buildDict_keys_nodup (rows : List (String × Option String)) :
    ((buildDict rows).map Prod.fst).Nodup :=
  buildDict_keys_nodup_aux rows [] List.nodup_nil

theorem matchingRows_nil_of_unmatched_judge {db : DB} {f : SearchFilters}
    (ht : truthy f.nombre_juez = true)
    (hno : ∀ j ∈ db.jueces, j.nombre_juez ≠ f.nombre_juez) :
    matchingRows db f = [] := by
  have hsome : necesita_join_jueces f = true := truthy_isSome ht
  unfold matchingRows
  rw [List.filter_eq_nil_iff]
  intro r hr
  rw [fromRows, hsome, if_pos rfl] at hr
  rw [mem_innerRows] at hr
  obtain ⟨s, _, sj, _, j, hjmem, _, _, rfl⟩ := hr
  simp only [rowMatches, judgeMatches, ht, Bool.not_true, Bool.false_or, Bool.and_eq_true,
    beq_iff_eq, not_and]
  intro _
  exact hno j hjmem

theorem condFrag_congr (c : String) {o1 o2 : Option String} (h : truthy o1 = truthy o2) :
    condFrag c o1 = condFrag c o2 := by
  unfold condFrag
  rw [h]

theorem condFrag_paramFrag_length (c : String) (o : Option String) :
    (condFrag c o).length = (paramFrag o).length := by
  unfold condFrag paramFrag
  by_cases ht : truthy o = true
  · rw [if_pos ht, if_pos ht]
    cases o with
    | none => simp [truthy] at ht
    | some v => rfl
  · rw [if_neg ht, if_neg ht]

theorem truthy_normalizeField (o : Option String) :
    truthy (normalizeField o) = truthy o := by
  unfold normalizeField
  by_cases ht : truthy o = true
  · rw [if_pos ht]
  · have hf : truthy o = false := Bool.eq_false_iff.mpr ht
    rw [if_neg ht, hf]
    rfl

theorem normalizeField_eq_of_truthy {o : Option String} (h : truthy o = true) :
    normalizeField o = o := by
  unfold normalizeField
  rw [if_pos h]

theorem condFrag_normalize (c : String) (o : Option String) :
    condFrag c (normalizeField o) = condFrag c o :=
  condFrag_congr c (truthy_normalizeField o)

theorem paramFrag_normalize (o : Option String) :
    paramFrag (normalizeField o) = paramFrag o := by
  by_cases ht : truthy o = true
  · rw [normalizeField_eq_of_truthy ht]
  · have hf : truthy o = false := Bool.eq_false_iff.mpr ht
    unfold paramFrag
    rw [truthy_normalizeField, hf]
    rfl

theorem eqClause_normalize (o x : Option String) :
    (!truthy (normalizeField o) || x == normalizeField o) = (!truthy o || x == o) := by
  by_cases ht : truthy o = true
  · rw [normalizeField_eq_of_truthy ht]
  · have hf : truthy o = false := Bool.eq_false_iff.mpr ht
    rw [truthy_normalizeField, hf]
    rfl

theorem directMatches_normalize (f : SearchFilters) (s : Sentencia) :
    directMatches (normalizeFilters f) s = directMatches f s := by
  unfold directMatches normalizeFilters
  simp only
  rw [eqClause_normalize, eqClause_normalize, eqClause_normalize, eqClause_normalize]

theorem judgeMatches_normalize (f : SearchFilters) (oj : Option Juez) :
    judgeMatches (normalizeFilters f) oj = judgeMatches f oj := by
  cases oj with
  | none =>
    unfold judgeMatches normalizeFilters
    simp only
    rw [truthy_normalizeField]
  | some j =>
    unfold judgeMatches normalizeFilters
    simp only
    rw [eqClause_normalize]

theorem fromRows_sMem {db : DB} {f : SearchFilters} {r : Row}
    (h : r ∈ fromRows db f) : r.s ∈ db.sentencias := by
  by_cases hj : necesita_join_jueces f = true
  · rw [fromRows, hj, if_pos rfl] at h
    rw [mem_innerRows] at h
    obtain ⟨s, hs, sj, _, j, _, _, _, rfl⟩ := h
    exact hs
  · have hjf : necesita_join_jueces f = false := Bool.eq_false_iff.mpr hj
    rw [fromRows, hjf, if_neg Bool.false_ne_true] at h
    exact leftRows_sMem h

/-- If any one of the supplied filter values matches no stored record, the
WHERE clause rejects every row of the join. -/
theorem matchingRows_nil_of_unmatched_value {db : DB} {f : SearchFilters}
    (hun :
      (truthy f.codigo_organo = true ∧
        ∀ s ∈ db.sentencias, s.codigo_organo ≠ f.codigo_organo) ∨
      (truthy f.codigo_recurso = true ∧
        ∀ s ∈ db.sentencias, s.codigo_recurso ≠ f.codigo_recurso) ∨
      (truthy f.especialidad_expe = true ∧
        ∀ s ∈ db.sentencias, s.especialidad_expe ≠ f.especialidad_expe) ∨
      (truthy f.organo_detalle = true ∧
        ∀ s ∈ db.sentencias, s.organo_detalle ≠ f.organo_detalle) ∨
      (truthy f.nombre_juez = true ∧
        ∀ j ∈ db.jueces, j.nombre_juez ≠ f.nombre_juez)) :
    matchingRows db f = [] := by
  rcases hun with ⟨ht, hno⟩ | ⟨ht, hno⟩ | ⟨ht, hno⟩ | ⟨ht, hno⟩ | ⟨ht, hno⟩
  · unfold matchingRows
    rw [List.filter_eq_nil_iff]
    intro r hr
    have hbeq : (r.s.codigo_organo == f.codigo_organo) = false :=
      beq_eq_false_iff_ne.mpr (hno r.s (fromRows_sMem hr))
    simp [rowMatches, directMatches, ht, hbeq]
  · unfold matchingRows
    rw [List.filter_eq_nil_iff]
    intro r hr
    have hbeq : (r.s.codigo_recurso == f.codigo_recurso) = false :=
      beq_eq_false_iff_ne.mpr (hno r.s (fromRows_sMem hr))
    simp [rowMatches, directMatches, ht, hbeq]
  · unfold matchingRows
    rw [List.filter_eq_nil_iff]
    intro r hr
    have hbeq : (r.s.especialidad_expe == f.especialidad_expe) = false :=
      beq_eq_false_iff_ne.mpr (hno r.s (fromRows_sMem hr))
    simp [rowMatches, directMatches, ht, hbeq]
  · unfold matchingRows
    rw [List.filter_eq_nil_iff]
    intro r hr
    have hbeq : (r.s.organo_detalle == f.organo_detalle) = false :=
      beq_eq_false_iff_ne.mpr (hno r.s (fromRows_sMem hr))
    simp [rowMatches, directMatches, ht, hbeq]
  · exact matchingRows_nil_of_unmatched_judge ht hno

/-- An empty matching-row set yields a zero count and an empty items
mapping. -/
theorem buscar_empty_of_matchingRows_nil {db : DB} {f : SearchFilters}
    (hnil : matchingRows db f = []) (limit offset : Nat) :
    (buscar_sentencias db f limit offset).total_count = 0 ∧
    (buscar_sentencias db f limit offset).items = [] := by
  constructor
  · show totalCount db f = 0
    unfold totalCount countBase
    rw [hnil]
    rfl
  · show buildDict (pageRows db f limit offset) = []
    unfold pageRows sortPairs distinctPairs
    rw [hnil]
    simp [buildDict, List.insertionSort]

theorem not_mem_countBase_of_no_assoc {db : DB} {f : SearchFilters} {n : String}
    (hj : necesita_join_jueces f = true)
    (h : ∀ sj ∈ db.sentencias_jueces, sj.ndetalle ≠ n) : n ∉ countBase db f := by
  intro hmem
  unfold countBase matchingRows at hmem
  rw [fromRows, hj, if_pos rfl] at hmem
  simp only [List.mem_map, List.mem_filter] at hmem
  obtain ⟨r, ⟨hrin, _⟩, hrn⟩ := hmem
  rw [mem_innerRows] at hrin
  obtain ⟨s, _, sj, hsj, j, _, hnd, _, rfl⟩ := hrin
  exact h sj hsj (by rw [hnd]; exact hrn)

/-- C1: for every subset of the five optional filters and every
(limit, offset), the `total_count` returned by the search operation equals the
number of distinct decision identifiers satisfying the conjunction of the
present equality predicates over the chosen join shape, and this count does
not depend on `limit` or `offset`. -/
theorem search_total_count_correct (db : DB) (f : SearchFilters)
    (limit offset limit2 offset2 : Nat) :
    (buscar_sentencias db f limit offset).total_count = specCount db f ∧
    (buscar_sentencias db f limit offset).total_count =
      (buscar_sentencias db f limit2 offset2).total_count :=
  ⟨totalCount_eq_specCount db f, rfl⟩

/-- C2: the page is the LIMIT/OFFSET window of the distinct
(identifier, storage path) pairs matching the same WHERE clause as the count,
ordered by identifier ascending; the page is duplicate-free and no longer
than `limit`; and the result is delivered as a mapping whose keys are unique
where a later row for the same identifier overwrites an earlier one. -/
theorem search_page_correct (db : DB) (f : SearchFilters) (limit offset : Nat) :
    pageRows db f limit offset =
      ((sortPairs (distinctPairs db f)).drop offset).take limit ∧
    (∀ p ∈ pageRows db f limit offset,
      ∃ r ∈ matchingRows db f, (r.s.ndetalle, r.s.url) = p) ∧
    List.Sorted (fun a b => strLe a.1 b.1 = true) (pageRows db f limit offset) ∧
    (pageRows db f limit offset).Nodup ∧
    (pageRows db f limit offset).length ≤ limit ∧
    (buscar_sentencias db f limit offset).items = buildDict (pageRows db f limit offset) ∧
    (∀ k, dictFind (buscar_sentencias db f limit offset).items k =
      ((pageRows db f limit offset).reverse.find? (fun p => p.1 == k)).map
        (fun p => p.2)) ∧
    ((buscar_sentencias db f limit offset).items.map Prod.fst).Nodup :=
  ⟨rfl, fun _ hp => mem_distinctPairs.mp (pageRows_mem hp),
    pageRows_sorted db f limit offset, pageRows_nodup db f limit offset,
    pageRows_length_le db f limit offset, rfl,
    fun k => buildDict_find _ k, buildDict_keys_nodup _⟩

/-- Witness for C2 at concrete input: the pair on the first page of an
unfiltered search of the sample store does come from a matching row. -/
theorem search_page_correct_witness :
    ∃ r ∈ matchingRows wDB wNoF, (r.s.ndetalle, r.s.url) = ("1", some "u1") :=
  (search_page_correct wDB wNoF 10 0).2.1 ("1", some "u1") (by decide)

/-- C3: the count query and the page query are built over the same
`FROM`/`JOIN` clause and the same `WHERE` clause, and consequently
`total_count` equals the number of distinct decision identifiers the page
query would enumerate across all pages. -/
theorem count_page_same_shape (db : DB) (f : SearchFilters) (limit offset : Nat) :
    count_query f =
      "SELECT COUNT(DISTINCT s.ndetalle) FROM " ++ from_clause f ++ " " ++
        where_sql f ++ ";" ∧
    select_query f =
      "SELECT DISTINCT s.ndetalle, s.url FROM " ++ from_clause f ++ " " ++
        where_sql f ++ " ORDER BY s.ndetalle LIMIT %s OFFSET %s;" ∧
    (buscar_sentencias db f limit offset).total_count =
      ((distinctPairs db f).map Prod.fst).dedup.length :=
  ⟨rfl, rfl, dedup_length_eq (fun _ => mem_map_fst_distinctPairs.symm)⟩

/-- C4: when the judge-name parameter is not supplied the outer (left) join
chain is used and every decision record satisfying the direct predicates is
included in the count base and in the page enumeration — in particular
decisions with no judge association; when it is supplied the inner join chain
is used and every matching row carries an association row and a judge row
matching the join keys. -/
theorem join_choice_correct (db : DB) (f : SearchFilters) :
    (f.nombre_juez = none →
      from_clause f =
        "sentencias_y_autos s LEFT JOIN sentencias_jueces sj ON sj.ndetalle = s.ndetalle LEFT JOIN jueces j ON j.codigo = sj.codigo" ∧
      ∀ s ∈ db.sentencias, directMatches f s = true →
        s.ndetalle ∈ countBase db f ∧
        s.ndetalle ∈ (distinctPairs db f).map Prod.fst) ∧
    (f.nombre_juez.isSome = true →
      from_clause f =
        "sentencias_y_autos s JOIN sentencias_jueces sj ON sj.ndetalle = s.ndetalle JOIN jueces j ON j.codigo = sj.codigo" ∧
      ∀ r ∈ matchingRows db f,
        ∃ sj ∈ db.sentencias_jueces, ∃ j ∈ db.jueces,
          r.sj = some sj ∧ r.j = some j ∧
          sj.ndetalle = r.s.ndetalle ∧ j.codigo = sj.codigo) := by
  constructor
  · intro hnone
    have hjf : necesita_join_jueces f = false := by
      unfold necesita_join_jueces
      rw [hnone]
      rfl
    constructor
    · simp [from_clause, hjf]
    · intro s hs hdir
      have hspec : specMatchesId db f s.ndetalle = true := by
        unfold specMatchesId
        rw [List.any_eq_true]
        refine ⟨s, hs, ?_⟩
        simp [hjf, hdir]
      have hcb : s.ndetalle ∈ countBase db f := mem_countBase_iff.mpr hspec
      exact ⟨hcb, mem_map_fst_distinctPairs.mpr hcb⟩
  · intro hsome
    have hj : necesita_join_jueces f = true := hsome
    constructor
    · simp [from_clause, hj]
    · intro r hr
      have hrin : r ∈ innerRows db := by
        have := (List.mem_filter.mp hr).1
        rw [fromRows, hj, if_pos rfl] at this
        exact this
      rw [mem_innerRows] at hrin
      obtain ⟨s, _, sj, hsj, j, hjm, hnd, hcod, rfl⟩ := hrin
      exact ⟨sj, hsj, j, hjm, rfl, rfl, hnd, hcod⟩

/-- Witness for C4 at concrete input: the unfiltered search on the sample
store uses the left-join clause and still counts decision "2", which has no
judge association. -/
theorem join_choice_correct_witness :
    from_clause wNoF =
      "sentencias_y_autos s LEFT JOIN sentencias_jueces sj ON sj.ndetalle = s.ndetalle LEFT JOIN jueces j ON j.codigo = sj.codigo" ∧
    "2" ∈ countBase wDB wNoF := by
  have h := (join_choice_correct wDB wNoF).1 rfl
  exact ⟨h.1, (h.2 wS2 (by decide) (by decide)).1⟩

/-- C5: the search operation performs no validation on filter values and
raises no error: for every combination of supplied filter strings the handler
completes and returns its result (run model, store-success path); and
whenever any one of the supplied filter values matches no stored record — any
of the four direct attributes, or a judge name carried by no judge — the
search yields `total_count = 0` and an empty items mapping rather than a
failure. -/
theorem unmatched_filter_yields_empty (db : DB) (f : SearchFilters)
    (limit offset : Nat) :
    buscar_sentencias_run db f limit offset true true =
      ⟨RunResult.ok (buscar_sentencias db f limit offset), true⟩ ∧
    (((truthy f.codigo_organo = true ∧
        ∀ s ∈ db.sentencias, s.codigo_organo ≠ f.codigo_organo) ∨
      (truthy f.codigo_recurso = true ∧
        ∀ s ∈ db.sentencias, s.codigo_recurso ≠ f.codigo_recurso) ∨
      (truthy f.especialidad_expe = true ∧
        ∀ s ∈ db.sentencias, s.especialidad_expe ≠ f.especialidad_expe) ∨
      (truthy f.organo_detalle = true ∧
        ∀ s ∈ db.sentencias, s.organo_detalle ≠ f.organo_detalle) ∨
      (truthy f.nombre_juez = true ∧
        ∀ j ∈ db.jueces, j.nombre_juez ≠ f.nombre_juez)) →
      (buscar_sentencias db f limit offset).total_count = 0 ∧
      (buscar_sentencias db f limit offset).items = []) :=
  ⟨rfl, fun hun =>
    buscar_empty_of_matchingRows_nil (matchingRows_nil_of_unmatched_value hun)
      limit offset⟩

/-- Witness for C5 at concrete input: an organ-code value "Z" matching no
record, and a judge name "X" matching no judge, each yield a zero count and
an empty mapping on the sample store. -/
theorem unmatched_filter_yields_empty_witness :
    (buscar_sentencias wDB wOX 10 0).total_count = 0 ∧
    (buscar_sentencias wDB wOX 10 0).items = [] ∧
    (buscar_sentencias wDB wJX 10 0).total_count = 0 ∧
    (buscar_sentencias wDB wJX 10 0).items = [] := by
  have h1 := (unmatched_filter_yields_empty wDB wOX 10 0).2 (by decide)
  have h2 := (unmatched_filter_yields_empty wDB wJX 10 0).2 (by decide)
  exact ⟨h1.1, h1.2, h2.1, h2.2⟩

/-- C6: under the data-model invariant that decision identifiers are unique,
`generar_url` yields HTTP 404 exactly when no record carries the identifier
or the matching record's storage path is NULL; otherwise it returns a signed
URL generated with version v4, method GET and a 15-minute expiry for the
record's blob. -/
theorem resolve_download_correct (db : DB) (nd : String)
    (huniq : ∀ a ∈ db.sentencias, ∀ b ∈ db.sentencias,
      a.ndetalle = b.ndetalle → a = b) :
    (generar_url db nd = .error 404 ↔
      (∀ s ∈ db.sentencias, s.ndetalle ≠ nd) ∨
      ∃ s ∈ db.sentencias, s.ndetalle = nd ∧ s.url = none) ∧
    (∀ s ∈ db.sentencias, s.ndetalle = nd → ∀ b, s.url = some b →
      generar_url db nd = .ok ⟨"v4", "GET", 15, b⟩) := by
  cases hf : db.sentencias.find? (fun s => s.ndetalle == nd) with
  | none =>
    have hall : ∀ s ∈ db.sentencias, s.ndetalle ≠ nd := by
      rw [List.find?_eq_none] at hf
      intro s hs
      simpa using hf s hs
    constructor
    · constructor
      · intro _
        exact Or.inl hall
      · intro _
        unfold generar_url
        rw [hf]
    · intro s hs hnd
      exact absurd hnd (hall s hs)
  | some s0 =>
    have hs0mem : s0 ∈ db.sentencias := List.mem_of_find?_eq_some hf
    have hs0nd : s0.ndetalle = nd := by simpa using List.find?_some hf
    cases hu : s0.url with
    | none =>
      have hval : generar_url db nd = .error 404 := by
        simp [generar_url, hf, hu]
      constructor
      · constructor
        · intro _
          exact Or.inr ⟨s0, hs0mem, hs0nd, hu⟩
        · intro _
          exact hval
      · intro s hs hnd b hb
        have hss : s = s0 := huniq s hs s0 hs0mem (by rw [hnd, hs0nd])
        rw [hss, hu] at hb
        simp at hb
    | some b0 =>
      have hval : generar_url db nd = .ok ⟨"v4", "GET", 15, b0⟩ := by
        simp [generar_url, hf, hu]
      constructor
      · constructor
        · intro h
          rw [hval] at h
          simp at h
        · intro h
          rcases h with hall | ⟨s, hs, hnd, hurl⟩
          · exact absurd hs0nd (hall s0 hs0mem)
          · have hss : s = s0 := huniq s hs s0 hs0mem (by rw [hnd, hs0nd])
            rw [hss, hu] at hurl
            simp at hurl
      · intro s hs hnd b hb
        have hss : s = s0 := huniq s hs s0 hs0mem (by rw [hnd, hs0nd])
        rw [hss, hu] at hb
        injection hb with hbe
        rw [hbe] at hval
        exact hval

/-- Witness for C6 at concrete input: on the sample store, identifier "1"
resolves to a v4 / GET / 15-minute signed URL for its blob, and identifier
"2", whose storage path is NULL, yields HTTP 404. -/
theorem resolve_download_correct_witness :
    generar_url wDB "1" = .ok ⟨"v4", "GET", 15, "u1"⟩ ∧
    generar_url wDB "2" = .error 404 := by
  have h1 := resolve_download_correct wDB "1" (by decide)
  have h2 := resolve_download_correct wDB "2" (by decide)
  refine ⟨h1.2 wS1 (by decide) (by decide) "u1" (by decide), ?_⟩
  exact h2.1.mpr (Or.inr ⟨wS2, by decide, by decide, by decide⟩)

/-- C7: each of the four direct filter lists is exactly the distinct non-null
values of its attribute across all decision records, sorted ascending and
duplicate-free; the judge-name list is exactly the distinct non-null names of
judges linked through the association table to at least one decision record,
sorted ascending and duplicate-free. -/
theorem filter_catalog_correct (db : DB) :
    (List.Sorted (fun a b => strLe a b = true) (obtener_filtros db).codigo_organo ∧
      (obtener_filtros db).codigo_organo.Nodup ∧
      ∀ v, v ∈ (obtener_filtros db).codigo_organo ↔
        ∃ s ∈ db.sentencias, s.codigo_organo = some v) ∧
    (List.Sorted (fun a b => strLe a b = true) (obtener_filtros db).codigo_recurso ∧
      (obtener_filtros db).codigo_recurso.Nodup ∧
      ∀ v, v ∈ (obtener_filtros db).codigo_recurso ↔
        ∃ s ∈ db.sentencias, s.codigo_recurso = some v) ∧
    (List.Sorted (fun a b => strLe a b = true) (obtener_filtros db).especialidad_expe ∧
      (obtener_filtros db).especialidad_expe.Nodup ∧
      ∀ v, v ∈ (obtener_filtros db).especialidad_expe ↔
        ∃ s ∈ db.sentencias, s.especialidad_expe = some v) ∧
    (List.Sorted (fun a b => strLe a b = true) (obtener_filtros db).organo_detalle ∧
      (obtener_filtros db).organo_detalle.Nodup ∧
      ∀ v, v ∈ (obtener_filtros db).organo_detalle ↔
        ∃ s ∈ db.sentencias, s.organo_detalle = some v) ∧
    (List.Sorted (fun a b => strLe a b = true) (obtener_filtros db).nombre_juez ∧
      (obtener_filtros db).nombre_juez.Nodup ∧
      ∀ v, v ∈ (obtener_filtros db).nombre_juez ↔
        ∃ j ∈ db.jueces, j.nombre_juez = some v ∧
          ∃ sj ∈ db.sentencias_jueces, sj.codigo = j.codigo ∧
            ∃ s ∈ db.sentencias, s.ndetalle = sj.ndetalle) := by
  refine ⟨⟨sortStr_sorted _, sortStr_nodup (distinctVals_nodup _), ?_⟩,
    ⟨sortStr_sorted _, sortStr_nodup (distinctVals_nodup _), ?_⟩,
    ⟨sortStr_sorted _, sortStr_nodup (distinctVals_nodup _), ?_⟩,
    ⟨sortStr_sorted _, sortStr_nodup (distinctVals_nodup _), ?_⟩,
    ⟨sortStr_sorted _, sortStr_nodup (distinctVals_nodup _), ?_⟩⟩
  · intro v
    exact sortStr_mem.trans (distinctVals_mem.trans List.mem_map)
  · intro v
    exact sortStr_mem.trans (distinctVals_mem.trans List.mem_map)
  · intro v
    exact sortStr_mem.trans (distinctVals_mem.trans List.mem_map)
  · intro v
    exact sortStr_mem.trans (distinctVals_mem.trans List.mem_map)
  · intro v
    rw [show (obtener_filtros db).nombre_juez = sortStr (juecesVinculados db) from rfl,
      sortStr_mem]
    unfold juecesVinculados
    rw [distinctVals_mem]
    simp only [List.mem_flatMap, List.mem_filter, List.mem_map, beq_iff_eq]
    constructor
    · rintro ⟨j, hj, sj, ⟨hsj, hcod⟩, s, ⟨hs, hnd⟩, hname⟩
      exact ⟨j, hj, hname, sj, hsj, hcod, s, hs, hnd⟩
    · rintro ⟨j, hj, hname, sj, hsj, hcod, s, hs, hnd⟩
      exact ⟨j, hj, sj, ⟨hsj, hcod⟩, s, ⟨hs, hnd⟩, hname⟩

/-- C8: for two requests with the same present filters (absent filters absent
in both, present filters truthy in both) the constructed count and page query
texts are identical regardless of the filter values — values are never
interpolated into the query text — and the condition list and bound-parameter
list correspond one to one in order. -/
theorem query_text_value_independent (f1 f2 : SearchFilters)
    (hp : samePresence f1 f2) :
    count_query f1 = count_query f2 ∧
    select_query f1 = select_query f2 ∧
    filtros_where f1 = filtros_where f2 ∧
    (filtros_where f1).length = (filterParams f1).length := by
  obtain ⟨h1, h2, h3, h4, h5⟩ := hp
  have t1 : truthy f1.codigo_organo = truthy f2.codigo_organo := by
    rcases h1 with ⟨ha, hb⟩ | ⟨ha, hb⟩
    · rw [ha, hb]
    · rw [ha, hb]
  have t2 : truthy f1.codigo_recurso = truthy f2.codigo_recurso := by
    rcases h2 with ⟨ha, hb⟩ | ⟨ha, hb⟩
    · rw [ha, hb]
    · rw [ha, hb]
  have t3 : truthy f1.especialidad_expe = truthy f2.especialidad_expe := by
    rcases h3 with ⟨ha, hb⟩ | ⟨ha, hb⟩
    · rw [ha, hb]
    · rw [ha, hb]
  have t4 : truthy f1.organo_detalle = truthy f2.organo_detalle := by
    rcases h4 with ⟨ha, hb⟩ | ⟨ha, hb⟩
    · rw [ha, hb]
    · rw [ha, hb]
  have t5 : truthy f1.nombre_juez = truthy f2.nombre_juez := by
    rcases h5 with ⟨ha, hb⟩ | ⟨ha, hb⟩
    · rw [ha, hb]
    · rw [ha, hb]
  have hjoin : necesita_join_jueces f1 = necesita_join_jueces f2 := by
    unfold necesita_join_jueces
    rcases h5 with ⟨ha, hb⟩ | ⟨ha, hb⟩
    · rw [ha, hb]
    · rw [truthy_isSome ha, truthy_isSome hb]
  have hw : filtros_where f1 = filtros_where f2 := by
    unfold filtros_where
    rw [condFrag_congr _ t1, condFrag_congr _ t2, condFrag_congr _ t3,
      condFrag_congr _ t4, condFrag_congr _ t5]
  have hfc : from_clause f1 = from_clause f2 := by
    unfold from_clause
    rw [hjoin]
  have hws : where_sql f1 = where_sql f2 := by
    unfold where_sql
    rw [hw]
  refine ⟨?_, ?_, hw, ?_⟩
  · unfold count_query
    rw [hfc, hws]
  · unfold select_query
    rw [hfc, hws]
  · unfold filtros_where filterParams
    simp only [List.length_append, condFrag_paramFrag_length]

/-- Witness for C8 at concrete input: two requests filtering the organ code
by the distinct values "A" and "B" produce the same count query text. -/
theorem query_text_value_independent_witness :
    samePresence wF1 wF2 ∧ count_query wF1 = count_query wF2 :=
  ⟨by decide, (query_text_value_independent wF1 wF2 (by decide)).1⟩

/-- C9: the claim that every handler releases its store connection on every
error path is contradicted by the code: there is no try/finally, so when a
`cur.execute` raises (store failure) the exception propagates without
`conn.close()` being reached, in all three handlers; by contrast the explicit
404 path and the signing step of `/descargar` do release the connection,
because `close()` precedes them. -/
theorem connection_release_on_failure_paths :
    (buscar_sentencias_run wDB wNoF 10 0 false true).connReleased = false ∧
    (buscar_sentencias_run wDB wNoF 10 0 false true).result = RunResult.storeFailure ∧
    (generar_url_run wDB "1" false true).connReleased = false ∧
    (obtener_filtros_run wDB false).connReleased = false ∧
    (generar_url_run wDB "2" true true).connReleased = true ∧
    (generar_url_run wDB "2" true true).result = RunResult.httpError 404 ∧
    (generar_url_run wDB "1" true false).connReleased = true ∧
    (generar_url_run wDB "1" true false).result = RunResult.storeFailure := by
  decide

/-- C10: a filter supplied as the empty string contributes no WHERE condition
and no bound parameter (the condition list, parameter list and row predicates
are unchanged by replacing empty-string filters with absent ones); but the
join choice tests presence rather than truthiness, so `nombre_juez = ""`
selects the inner join chain with no judge-name condition, excluding every
decision identifier that has no row in the association table. -/
theorem empty_string_filter_behaviour (db : DB) (f : SearchFilters) :
    filtros_where (normalizeFilters f) = filtros_where f ∧
    filterParams (normalizeFilters f) = filterParams f ∧
    (∀ s, directMatches (normalizeFilters f) s = directMatches f s) ∧
    (∀ oj, judgeMatches (normalizeFilters f) oj = judgeMatches f oj) ∧
    (f.nombre_juez = some "" →
      necesita_join_jueces f = true ∧
      from_clause f =
        "sentencias_y_autos s JOIN sentencias_jueces sj ON sj.ndetalle = s.ndetalle JOIN jueces j ON j.codigo = sj.codigo" ∧
      filtros_where f = filtros_where { f with nombre_juez := none } ∧
      ∀ n, (∀ sj ∈ db.sentencias_jueces, sj.ndetalle ≠ n) →
        n ∉ countBase db f) := by
  refine ⟨?_, ?_, directMatches_normalize f, judgeMatches_normalize f, ?_⟩
  · unfold filtros_where normalizeFilters
    simp only
    rw [condFrag_normalize, condFrag_normalize, condFrag_normalize,
      condFrag_normalize, condFrag_normalize]
  · unfold filterParams normalizeFilters
    simp only
    rw [paramFrag_normalize, paramFrag_normalize, paramFrag_normalize,
      paramFrag_normalize, paramFrag_normalize]
  · intro hjz
    have hjoin : necesita_join_jueces f = true := by
      unfold necesita_join_jueces
      rw [hjz]
      rfl
    refine ⟨hjoin, ?_, ?_, fun n hn => not_mem_countBase_of_no_assoc hjoin hn⟩
    · simp [from_clause, hjoin]
    · unfold filtros_where
      rw [hjz]
      rfl

/-- Witness for C10 at concrete input: with `nombre_juez` supplied as the
empty string, the sample search uses the inner join chain and the decision
"2", which has no judge association, is excluded from the count base. -/
theorem empty_string_filter_behaviour_witness :
    necesita_join_jueces wJE = true ∧ "2" ∉ countBase wDB wJE := by
  have h := (empty_string_filter_behaviour wDB wJE).2.2.2.2 rfl
  exact ⟨h.1, h.2.2.2 "2" (by decide)⟩

end SentApp
